import Mathlib

/-!
Shallow embedding of `src/utils.js` of redux-tooltip: a pure geometry
utility that measures an anchor, computes candidate tooltip offsets for a
requested direction, detects overflow against a reference area, and falls
back through alternate directions.

JavaScript numbers are modelled as `JsNum`: either `NaN` or an exact
rational value (all values handled by the module are produced by field
arithmetic on measured coordinates; IEEE rounding and infinities are not
modelled).  Object fields that may be absent or hold pixel strings are
modelled as `JField`.  DOM reads (bounding rectangles, scroll offsets,
window size, `getElementById`) are supplied by an explicit environment
`Env` snapshot.
-/

namespace Tooltip

/-- A JavaScript number: `NaN` or an exact rational value. -/
inductive JsNum where
  | nan
  | val (q : ℚ)
deriving DecidableEq

namespace JsNum

/-- JS `+` on numbers: `NaN` absorbs. -/
def add : JsNum → JsNum → JsNum
  | val a, val b => val (a + b)
  | _, _ => nan

/-- JS `-` on numbers: `NaN` absorbs. -/
def sub : JsNum → JsNum → JsNum
  | val a, val b => val (a - b)
  | _, _ => nan

/-- JS `*` on numbers: `NaN` absorbs. -/
def mul : JsNum → JsNum → JsNum
  | val a, val b => val (a * b)
  | _, _ => nan

/-- JS `<` on numbers: every comparison with `NaN` is false. -/
def lt : JsNum → JsNum → Bool
  | val a, val b => decide (a < b)
  | _, _ => false

/-- JS `Math.max` on two numbers: `NaN` if either argument is `NaN`. -/
def jmax : JsNum → JsNum → JsNum
  | val a, val b => val (max a b)
  | _, _ => nan

/-- JS `Math.min` on two numbers: `NaN` if either argument is `NaN`. -/
def jmin : JsNum → JsNum → JsNum
  | val a, val b => val (min a b)
  | _, _ => nan

/-- JS truthiness of a number: `0` and `NaN` are falsy. -/
def truthy : JsNum → Bool
  | nan => false
  | val q => decide (q ≠ 0)

/-- JS `a || b` restricted to numbers. -/
def orElse (a b : JsNum) : JsNum := if a.truthy then a else b

end JsNum

/-- The value of a possibly-absent object field as the module sees it:
absent (`undefined`), a number, or a string. -/
inductive JField where
  | undefined
  | num (n : JsNum)
  | str (s : String)
deriving DecidableEq

namespace JField

/-- `typeof f === 'number'` (true for `NaN` as well). -/
def isNum : JField → Bool
  | num _ => true
  | _ => false

/-- JS `ToNumber` coercion as used by arithmetic and comparisons in this
module: `undefined` coerces to `NaN`.  String fields never reach the
coercion sites of this module (`strip` has converted them first), so the
string case is mapped to `NaN` without modelling full string coercion. -/
def toNum : JField → JsNum
  | num n => n
  | _ => .nan

end JField

/-- JS `a + b` where `a` is a field (possibly `undefined`) and arithmetic
coerces: `undefined + n = NaN`. -/
def jfAdd (a b : JField) : JField := .num ((a.toNum).add b.toNum)

/-- JS `a < b` on field values at the module's comparison sites. -/
def jfLt (a b : JField) : Bool := (a.toNum).lt b.toNum

/-- Decimal digit character. -/
def digitChar (n : Nat) : Char := Char.ofNat (48 + n)

/-- Decimal digits of the fractional part `r / d`, fuel-bounded (the
module's values have short terminating expansions; longer expansions are
truncated, an explicit modelling bound). -/
def fracDigits : Nat → Nat → Nat → List Char
  | _, _, 0 => []
  | r, d, fuel + 1 =>
    if r = 0 then []
    else digitChar (r * 10 / d) :: fracDigits (r * 10 % d) d fuel

/-- Decimal notation of the non-negative rational `n / d`. -/
def decRepr (n d : Nat) : String :=
  if n % d = 0 then toString (n / d)
  else toString (n / d) ++ "." ++ String.mk (fracDigits (n % d) d 40)

/-- JS `ToString` of a finite number (decimal notation). -/
def qToString (q : ℚ) : String :=
  (if q < 0 then "-" else "") ++ decRepr q.num.natAbs q.den

/-- JS `ToString` of a number, including `NaN`. -/
def jsNumToString : JsNum → String
  | .nan => "NaN"
  | .val q => qToString q

/-- The template literal `` `${n}px` `` used by `placement`. -/
def pxString (n : JsNum) : String := jsNumToString n ++ "px"

/-- ASCII whitespace (the whitespace relevant to the module's inputs). -/
def isSpaceChar (c : Char) : Bool := c == ' ' || c == '\t' || c == '\n' || c == '\r'

/-- Digit test. -/
def isDigitChar (c : Char) : Bool := '0' ≤ c && c ≤ '9'

/-- Value of a digit string. -/
def digitsVal (l : List Char) : Nat := l.foldl (fun a c => a * 10 + (c.toNat - 48)) 0

/-- `String.prototype.replace('px', '')`: removes the first occurrence of
`"px"` only. -/
def stripPxOnce : List Char → List Char
  | [] => []
  | 'p' :: 'x' :: rest => rest
  | c :: rest => c :: stripPxOnce rest

/-- String form of `stripPxOnce`. -/
def stripPx (s : String) : String := String.mk (stripPxOnce s.data)

/-- The discrete part of JS `parseFloat`: skip leading whitespace, parse
an optional sign, a decimal mantissa and an optional exponent.  Returns
`none` when no digits are found, otherwise the sign, integer-part value,
fraction-part value, fraction length, and exponent. -/
def parseParts (s : String) : Option (Bool × Nat × Nat × Nat × Int) :=
  let l := s.data.dropWhile isSpaceChar
  let neg := match l with
    | '-' :: _ => true
    | _ => false
  let l1 := match l with
    | '-' :: r => r
    | '+' :: r => r
    | _ => l
  let ip := l1.takeWhile isDigitChar
  let l2 := l1.drop ip.length
  let fp := match l2 with
    | '.' :: r => r.takeWhile isDigitChar
    | _ => []
  let l3 := match l2 with
    | '.' :: r => r.drop fp.length
    | _ => l2
  if ip.isEmpty && fp.isEmpty then none
  else
    let exp : Int := match l3 with
      | e :: r =>
        if e == 'e' || e == 'E' then
          let eneg := match r with
            | '-' :: _ => true
            | _ => false
          let r2 := match r with
            | '-' :: r2 => r2
            | '+' :: r2 => r2
            | _ => r
          let ed := r2.takeWhile isDigitChar
          if ed.isEmpty then 0
          else if eneg then -(digitsVal ed : Int) else (digitsVal ed : Int)
        else 0
      | [] => 0
    some (neg, digitsVal ip, digitsVal fp, fp.length, exp)

/-- JS `parseFloat`: `NaN` when no digits are found, otherwise the value
of the parsed decimal literal (`Infinity` literals are not modelled). -/
def parseFloat (s : String) : JsNum :=
  match parseParts s with
  | none => .nan
  | some (neg, ip, fp, fpLen, exp) =>
    let mant : ℚ := (ip : ℚ) + (fp : ℚ) / (10 : ℚ) ^ fpLen
    let mag : ℚ := if 0 ≤ exp then mant * (10 : ℚ) ^ exp.toNat else mant / (10 : ℚ) ^ (-exp).toNat
    .val (if neg then -mag else mag)

/-- `String.prototype.trim`. -/
def jsTrim (s : String) : String :=
  String.mk (((s.data.dropWhile isSpaceChar).reverse.dropWhile isSpaceChar).reverse)

/-- `String.prototype.split(',')`. -/
def splitCommaChars : List Char → List (List Char)
  | [] => [[]]
  | ',' :: rest => [] :: splitCommaChars rest
  | c :: rest =>
    match splitCommaChars rest with
    | h :: t => (c :: h) :: t
    | [] => [[c]]

/-- String form of `splitCommaChars`. -/
def jsSplitComma (s : String) : List String := (splitCommaChars s.data).map String.mk

example : jsSplitComma "top, bottom" = ["top", " bottom"] := by decide
example : (jsSplitComma "top, bottom").map jsTrim = ["top", "bottom"] := by decide
example : stripPx "68px" = "68" := by decide
example : parseFloat "NaN" = .nan := by decide

/-- The result of `getBoundingClientRect()` on a real element: always
fully numeric. -/
structure ClientRect where
  top : JsNum
  left : JsNum
  right : JsNum
  bottom : JsNum
  width : JsNum
  height : JsNum
deriving DecidableEq

/-- A plain JS object with the six rectangle fields the module reads;
any field may be absent, numeric, or a pixel string. -/
structure JRect where
  top : JField := .undefined
  left : JField := .undefined
  right : JField := .undefined
  bottom : JField := .undefined
  width : JField := .undefined
  height : JField := .undefined
deriving DecidableEq

/-- Snapshot of every DOM read the module performs: window scroll
offsets, document/body scroll metrics, window inner size, and element
lookup by id (`none` when `getElementById` returns `null`). -/
structure Env where
  pageYOffset : JsNum
  pageXOffset : JsNum
  docScrollTop : JsNum
  docClientTop : JsNum
  docScrollLeft : JsNum
  docClientLeft : JsNum
  bodyParentScrollTop : JsNum
  bodyParentScrollLeft : JsNum
  bodyScrollTop : JsNum
  bodyScrollLeft : JsNum
  innerWidth : JsNum
  innerHeight : JsNum
  getElementById : String → Option ClientRect

/-- A JS value in the positions the module probes with `isDOM`,
`typeof` and truthiness: the `dom` case is a DOM element (carrying its
bounding rectangle), `plain` a non-DOM object of which only the `x` and
`y` fields are ever read. -/
inductive JsVal where
  | undefined
  | jnull
  | boolean (b : Bool)
  | num (n : JsNum)
  | str (s : String)
  | dom (r : ClientRect)
  | plain (x y : JField)

/-- JS truthiness. -/
def truthy : JsVal → Bool
  | .undefined => false
  | .jnull => false
  | .boolean b => b
  | .num n => n.truthy
  | .str s => !s.isEmpty
  | .dom _ => true
  | .plain _ _ => true

/-- `origin.x` for the plain-object branch of `placement` (absent on
every other value the module can meet there). -/
def getX : JsVal → JField
  | .plain x _ => x
  | _ => .undefined

/-- `origin.y` for the plain-object branch of `placement`. -/
def getY : JsVal → JField
  | .plain _ y => y
  | _ => .undefined

/-- `dimension(el)`: width and height of the content element's bounding
rectangle. -/
def dimension (el : ClientRect) : JsNum × JsNum := (el.width, el.height)

/-- `undefined`-aware read of a bounding-rect field of `el ? el.getBoundingClientRect() : {}`. -/
def rectField (el : Option ClientRect) (f : ClientRect → JsNum) : JField :=
  match el with
  | some r => .num (f r)
  | none => .undefined

/-- `position(el)`: the element's rectangle in document coordinates,
shifted by the window scroll offset; with no element the source reads
fields of `{}` so every coordinate is `undefined + offset = NaN` and the
dimensions stay `undefined`. -/
def position (el : Option ClientRect) (env : Env) : JRect :=
  let winTop := (env.pageYOffset.orElse env.docScrollTop).sub env.docClientTop
  let winLeft := (env.pageXOffset.orElse env.docScrollLeft).sub env.docClientLeft
  { top := jfAdd (rectField el ClientRect.top) (.num winTop)
    left := jfAdd (rectField el ClientRect.left) (.num winLeft)
    right := jfAdd (rectField el ClientRect.right) (.num winLeft)
    bottom := jfAdd (rectField el ClientRect.bottom) (.num winTop)
    width := rectField el ClientRect.width
    height := rectField el ClientRect.height }

/-- `scrollOffset()`: first truthy scroll offset among document element,
body parent and body (`reduce((p, v) => p || v)`). -/
def scrollOffset (env : Env) : JsNum × JsNum :=
  ((env.docScrollTop.orElse env.bodyParentScrollTop).orElse env.bodyScrollTop,
   (env.docScrollLeft.orElse env.bodyParentScrollLeft).orElse env.bodyScrollLeft)

/-- `contentArea()`: current scroll offset plus window inner size (no
`right`/`bottom` fields on the literal object). -/
def contentArea (env : Env) : JRect :=
  { top := .num (scrollOffset env).1
    left := .num (scrollOffset env).2
    height := .num env.innerHeight
    width := .num env.innerWidth }

/-- One field of `strip`: string values are parsed after removing the
first `"px"`; other values pass through. -/
def stripField : JField → JField
  | .str s => .num (parseFloat (stripPx s))
  | f => f

/-- `strip(obj)`: convert each of the six tracked properties from a
pixel string to a number when it is a string. -/
def strip (r : JRect) : JRect :=
  { top := stripField r.top
    left := stripField r.left
    right := stripField r.right
    bottom := stripField r.bottom
    width := stripField r.width
    height := stripField r.height }

/-- `amend(area)`: strip units, default missing `top`/`left` to `0`, and
derive missing `right`/`bottom` from `left + width`/`top + height` when
the needed dimension is numeric. -/
def amend (r : JRect) : JRect :=
  let d := strip r
  let top := if d.top.isNum then d.top else .num (.val 0)
  let left := if d.left.isNum then d.left else .num (.val 0)
  let right := if !d.right.isNum && d.width.isNum then jfAdd left d.width else d.right
  let bottom := if !d.bottom.isNum && d.height.isNum then jfAdd top d.height else d.bottom
  { top := top, left := left, right := right, bottom := bottom, width := d.width, height := d.height }

/-- `intersection(area1, area2)`: `max` of tops/lefts, `min` of computed
right/bottom edges, and the signed width/height of the overlap.  The
fields of both arguments are numeric at every call site of the module;
non-numeric fields coerce to `NaN` here. -/
def intersection (a1 a2 : JRect) : JRect :=
  let top := (a1.top.toNum).jmax a2.top.toNum
  let right := ((a1.left.toNum).add a1.width.toNum).jmin ((a2.left.toNum).add a2.width.toNum)
  let bottom := ((a1.top.toNum).add a1.height.toNum).jmin ((a2.top.toNum).add a2.height.toNum)
  let left := (a1.left.toNum).jmax a2.left.toNum
  { top := .num top, right := .num right, bottom := .num bottom, left := .num left,
    height := .num (bottom.sub top), width := .num (right.sub left) }

/-- The canonical direction list `DIRS`. -/
def DIRS : List String := ["top", "right", "bottom", "left"]

/-- The argument of `complete`: a single direction string or a list. -/
inductive StrOrList where
  | str (s : String)
  | list (l : List String)

/-- `complete(dir)`: wrap a single string into a list, then append the
canonical directions not already present (`indexOf === -1`), in
canonical order. -/
def complete (dir : StrOrList) : List String :=
  let d := match dir with
    | .str s => [s]
    | .list l => l
  d ++ DIRS.filter (fun x => !d.contains x)

/-- `overDirs(tip, el)`: amend the tip and the viewport area, bound the
area by the container's position when a container element is supplied,
and collect the directions in which the tip sticks out. -/
def overDirs (tip : JRect) (el : Option ClientRect) (env : Env) : List String :=
  let tip2 := amend tip
  let area0 := amend (contentArea env)
  let area := match el with
    | some e => intersection area0 (position (some e) env)
    | none => area0
  (if jfLt tip2.top area.top then ["top"] else []) ++
  (if jfLt area.right tip2.right then ["right"] else []) ++
  (if jfLt area.bottom tip2.bottom then ["bottom"] else []) ++
  (if jfLt tip2.left area.left then ["left"] else [])

/-- The offset object built by `placement`: width/height are the numeric
content dimensions; `top`/`left` are set to pixel strings by the branch
for the requested direction (absent otherwise). -/
structure Offset where
  width : JsNum
  height : JsNum
  top : JField := .undefined
  left : JField := .undefined
deriving DecidableEq

/-- The offset object as `overDirs` sees it when it is passed as the
`tip` argument (no `right`/`bottom` properties). -/
def Offset.toJRect (o : Offset) : JRect :=
  { top := o.top, left := o.left, width := .num o.width, height := .num o.height }

/-- `placement(place, content, origin)`: resolve the origin to a
position rectangle (DOM element, id lookup, or the point-shaped default
reading `origin.x`/`origin.y`), then centre on the cross axis and offset
by the content size plus a fixed 12-unit gap on the main axis. -/
def placement (place : String) (content : ClientRect) (origin : JsVal) (env : Env) : Offset :=
  let gap : JsNum := .val 12
  let dim := dimension content
  let pos : JRect := match origin with
    | .dom r => position (some r) env
    | .str s => position (env.getElementById s) env
    | o => { top := getY o, right := getX o, bottom := getY o, left := getX o,
             width := .num (.val 0), height := .num (.val 0) }
  let half : JsNum := .val (1 / 2)
  let o0 : Offset := { width := dim.1, height := dim.2 }
  let o1 : Offset :=
    if place == "top" || place == "bottom" then
      { o0 with left := .str (pxString (((pos.left.toNum).add ((pos.width.toNum).mul half)).sub
          (dim.1.mul half))) }
    else if place == "left" || place == "right" then
      { o0 with top := .str (pxString (((pos.top.toNum).add ((pos.height.toNum).mul half)).sub
          (dim.2.mul half))) }
    else o0
  if place == "top" then
    { o1 with top := .str (pxString (((pos.top.toNum).sub dim.2).sub gap)) }
  else if place == "right" then
    { o1 with left := .str (pxString ((pos.right.toNum).add gap)) }
  else if place == "bottom" then
    { o1 with top := .str (pxString (((pos.top.toNum).add pos.height.toNum).add gap)) }
  else if place == "left" then
    { o1 with left := .str (pxString (((pos.left.toNum).sub dim.1).sub gap)) }
  else o1

/-- `originOrEl(props)`: `props.origin || props.el`. -/
def originOrEl (origin el : JsVal) : JsVal := if truthy origin then origin else el

/-- The props `adjust` consumes.  `within` models the element produced
by `within && within()` in the loop (`none` when the prop is absent or
the accessor returns nothing). -/
structure Props where
  auto : Bool
  within : Option ClientRect
  origin : JsVal
  el : JsVal
  place : StrOrList

/-- A `{offset, place}` placement result. -/
structure PlaceResult where
  offset : Offset
  place : String
deriving DecidableEq

/-- The `while` loop of `adjust`: try each direction, remember the first
attempt, return on the first direction with no overflow. -/
def adjustLoop (content : ClientRect) (origin : JsVal) (el : Option ClientRect) (env : Env) :
    List String → Option PlaceResult → Option PlaceResult
  | [], first => first
  | cur :: rest, first =>
    let pos := placement cur content origin env
    let first2 := match first with
      | none => some ⟨pos, cur⟩
      | some f => some f
    if (overDirs pos.toJRect el env).length = 0 then some ⟨pos, cur⟩
    else adjustLoop content origin el env rest first2

/-- `adjust(content, props)`: resolve the origin, normalise `place`
(split a comma-joined string and trim), complete it under `auto`, and
run the fallback loop.  Returns `none` exactly when the loop never runs
(JS returns `undefined` then). -/
def adjust (content : ClientRect) (props : Props) (env : Env) : Option PlaceResult :=
  let origin := originOrEl props.origin props.el
  let place := match props.place with
    | .str s => (jsSplitComma s).map jsTrim
    | .list l => l
  let place := if props.auto then complete (.list place) else place
  adjustLoop content origin props.within env place none

/-- The reference area the Overflow Detector checks against: the amended
viewport area, bounded by the container's position when a container
element is supplied. -/
def refArea (el : Option ClientRect) (env : Env) : JRect :=
  match el with
  | some e => intersection (amend (contentArea env)) (position (some e) env)
  | none => amend (contentArea env)

/-! ### Concrete test fixtures and evaluation lemmas -/

/-- A scroll-free environment with a 1000 × 1000 viewport and no
elements registered by id. -/
def env0 : Env :=
  { pageYOffset := .val 0, pageXOffset := .val 0
    docScrollTop := .val 0, docClientTop := .val 0
    docScrollLeft := .val 0, docClientLeft := .val 0
    bodyParentScrollTop := .val 0, bodyParentScrollLeft := .val 0
    bodyScrollTop := .val 0, bodyScrollLeft := .val 0
    innerWidth := .val 1000, innerHeight := .val 1000
    getElementById := fun _ => none }

/-- A content element measuring 40 × 20. -/
def content0 : ClientRect :=
  { top := .val 0, left := .val 0, right := .val 40, bottom := .val 20,
    width := .val 40, height := .val 20 }

/-- A plain (non-DOM) origin object carrying `x: 100, y: 100`. -/
def origin100 : JsVal := .plain (.num (.val 100)) (.num (.val 100))

/-- A plain (non-DOM) origin object carrying no `x`/`y` fields, such as
the rectangle literal `{top: 100, left: 100, width: 0, height: 0}`
(`placement` reads only `x` and `y` of a plain origin). -/
def originRect : JsVal := .plain .undefined .undefined

theorem pf68 : parseFloat "68" = .val 68 := by
  have h : parseParts "68" = some (false, 68, 0, 0, 0) := by decide
  simp only [parseFloat, h]
  norm_num

theorem pf80 : parseFloat "80" = .val 80 := by
  have h : parseParts "80" = some (false, 80, 0, 0, 0) := by decide
  simp only [parseFloat, h]
  norm_num

theorem px68 : pxString (.val 68) = "68px" := by
  have hn : ((68 : ℚ)).num.natAbs = 68 := by norm_num
  have hd : ((68 : ℚ)).den = 1 := by norm_num
  have hlt : ¬ ((68 : ℚ) < 0) := by norm_num
  simp only [pxString, jsNumToString, qToString, hn, hd, if_neg hlt]
  decide

theorem px80 : pxString (.val 80) = "80px" := by
  have hn : ((80 : ℚ)).num.natAbs = 80 := by norm_num
  have hd : ((80 : ℚ)).den = 1 := by norm_num
  have hlt : ¬ ((80 : ℚ) < 0) := by norm_num
  simp only [pxString, jsNumToString, qToString, hn, hd, if_neg hlt]
  decide

theorem areaEval : amend (contentArea env0) =
    { top := .num (.val 0), left := .num (.val 0), right := .num (.val 1000),
      bottom := .num (.val 1000), width := .num (.val 1000), height := .num (.val 1000) } := by
  simp only [amend, strip, stripField, contentArea, scrollOffset, env0, jfAdd, JField.toNum,
    JField.isNum, JsNum.add, JsNum.orElse, JsNum.truthy]
  norm_num

theorem tipAmendNaN : amend (Offset.toJRect ⟨.val 40, .val 20, .str "NaNpx", .str "NaNpx"⟩) =
    { top := .num .nan, left := .num .nan, right := .num .nan, bottom := .num .nan,
      width := .num (.val 40), height := .num (.val 20) } := by decide

theorem overEvalNaN :
    overDirs (Offset.toJRect ⟨.val 40, .val 20, .str "NaNpx", .str "NaNpx"⟩) none env0 = [] := by
  simp only [overDirs, tipAmendNaN, areaEval]
  decide

theorem placeEvalNaN :
    placement "top" content0 originRect env0 =
      ⟨.val 40, .val 20, .str "NaNpx", .str "NaNpx"⟩ := by decide

theorem adjEvalNaN :
    adjust content0
      { auto := false, within := none,
        origin := originRect, el := .undefined, place := .str "top" } env0 =
      some ⟨⟨.val 40, .val 20, .str "NaNpx", .str "NaNpx"⟩, "top"⟩ := by
  have htrim : jsTrim (String.mk ['t', 'o', 'p']) = "top" := by decide
  have htru : truthy originRect = true := by decide
  simp only [adjust, originOrEl, htru, if_true, htrim, adjustLoop, placeEvalNaN, overEvalNaN]
  decide

theorem placeEval100 :
    placement "top" content0 origin100 env0 =
      ⟨.val 40, .val 20, .str "68px", .str "80px"⟩ := by
  simp only [placement, origin100, content0, dimension, getX, getY, JField.toNum,
    JsNum.add, JsNum.sub, JsNum.mul]
  norm_num [px68, px80]

theorem tipAmend100 : amend (Offset.toJRect ⟨.val 40, .val 20, .str "68px", .str "80px"⟩) =
    { top := .num (.val 68), left := .num (.val 80), right := .num (.val 120),
      bottom := .num (.val 88), width := .num (.val 40), height := .num (.val 20) } := by
  have h1 : stripPx "68px" = "68" := by decide
  have h2 : stripPx "80px" = "80" := by decide
  simp only [amend, strip, stripField, Offset.toJRect, h1, h2, pf68, pf80, jfAdd,
    JField.toNum, JField.isNum, JsNum.add]
  norm_num

theorem overEval100 :
    overDirs (Offset.toJRect ⟨.val 40, .val 20, .str "68px", .str "80px"⟩) none env0 = [] := by
  simp only [overDirs, tipAmend100, areaEval]
  decide

/-- Direction `d` fits: the offset computed for `d` has an empty
overflow-direction set. -/
def fitsb (content : ClientRect) (origin : JsVal) (w : Option ClientRect) (env : Env)
    (d : String) : Bool :=
  decide ((overDirs (placement d content origin env).toJRect w env).length = 0)

theorem adjustLoop_some (content : ClientRect) (origin : JsVal) (w : Option ClientRect)
    (env : Env) :
    ∀ (l : List String) (f : PlaceResult),
      adjustLoop content origin w env l (some f) =
        some ((l.find? (fitsb content origin w env)).elim f
          (fun d => ⟨placement d content origin env, d⟩)) := by
  intro l
  induction l with
  | nil => intro f; rfl
  | cons c rest ih =>
    intro f
    by_cases h : (overDirs (placement c content origin env).toJRect w env).length = 0
    · simp [adjustLoop, h, List.find?_cons_of_pos, fitsb]
    · rw [adjustLoop]
      simp only [h, if_false]
      rw [List.find?_cons_of_neg _ (by simp [fitsb, h]), ih]

/-! ### Claims -/

/-- C1 (counterexample): with the origin supplied as the plain rectangle
object `{top: 100, left: 100, width: 0, height: 0}` — which carries no
`x`/`y` fields — the non-DOM branch of `placement` reads `origin.y` and
`origin.x`, both `undefined`, so the end-to-end `adjust` call of the
claim's scenario (content 40 × 20, `place: 'top'`, no container, large
viewport) returns `offset.top = 'NaNpx'`, not `'68px'` as the claim
states (the returned `place` is still `'top'`, because comparisons
against `NaN` are all false and so no direction is reported as
overflowing). -/
theorem adjust_rect_origin_gives_NaN_not_68px :
    (adjust content0
      { auto := false, within := none,
        origin := originRect, el := .undefined, place := .str "top" } env0).map
        (fun r => r.offset.top) = some (.str "NaNpx") ∧
    (JField.str "NaNpx") ≠ .str "68px" := by
  refine ⟨?_, by decide⟩
  rw [adjEvalNaN]
  rfl

/-- C1 (amended): for the end-to-end scenario where `adjust` is called
with a content element of width 40 and height 20, props whose place is
`'top'` with no container, and the origin given as the plain point
object `{x: 100, y: 100}` (the fields the code reads for a non-DOM,
non-string origin; a `{top, left, width, height}` rectangle is not
consulted), with a viewport large enough that no direction overflows,
the returned placement result has place `'top'`, `offset.top = '68px'`
and `offset.left = '80px'`. -/
theorem adjust_point_origin_end_to_end :
    adjust content0
      { auto := false, within := none,
        origin := origin100, el := .undefined, place := .str "top" } env0 =
      some ⟨⟨.val 40, .val 20, .str "68px", .str "80px"⟩, "top"⟩ := by
  have htrim : jsTrim (String.mk ['t', 'o', 'p']) = "top" := by decide
  have htru : truthy origin100 = true := by decide
  simp only [adjust, originOrEl, htru, if_true, htrim, adjustLoop, placeEval100, overEval100]
  decide

/-- C2: for every content element, non-empty priority list of
directions, and origin (resolved from the `origin`/`el` props), `adjust`
iterates the priority list in order and returns, as `{offset, place}`,
the first direction whose overflow-direction set is empty; when every
candidate direction overflows it returns the first attempt's offset and
direction (the list head), never failing to produce a placement. -/
theorem adjust_first_fit (content : ClientRect) (o e : JsVal) (w : Option ClientRect)
    (env : Env) (l : List String) (h : l ≠ []) :
    adjust content ⟨false, w, o, e, .list l⟩ env =
      some ((l.find? (fitsb content (originOrEl o e) w env)).elim
        ⟨placement (l.headD "") content (originOrEl o e) env, l.headD ""⟩
        (fun d => ⟨placement d content (originOrEl o e) env, d⟩)) := by
  obtain ⟨c, rest, rfl⟩ : ∃ c rest, l = c :: rest := by
    cases l with
    | nil => exact absurd rfl h
    | cons c rest => exact ⟨c, rest, rfl⟩
  show adjustLoop content (originOrEl o e) w env (c :: rest) none = _
  by_cases hc : (overDirs (placement c content (originOrEl o e) env).toJRect w env).length = 0
  · rw [adjustLoop]
    simp [hc, List.find?_cons_of_pos, fitsb]
  · rw [adjustLoop]
    simp only [hc, if_false]
    rw [adjustLoop_some, List.find?_cons_of_neg _ (by simp [fitsb, hc])]
    rfl

/-- C2 (witness): the characterization instantiated at the concrete
40 × 20 content, point origin `{x: 100, y: 100}`, no container, priority
list `['top']`. -/
theorem adjust_first_fit_witness :
    adjust content0 ⟨false, none, origin100, .undefined, .list ["top"]⟩ env0 =
      some (((["top"] : List String).find? (fitsb content0 (originOrEl origin100 .undefined) none env0)).elim
        ⟨placement ((["top"] : List String).headD "") content0 (originOrEl origin100 .undefined) env0,
          (["top"] : List String).headD ""⟩
        (fun d => ⟨placement d content0 (originOrEl origin100 .undefined) env0, d⟩)) :=
  adjust_first_fit content0 origin100 .undefined none env0 ["top"] (by decide)

/-- C3: `overDirs` returns exactly the subset of
`{top, right, bottom, left}` (in that canonical order) for which the
amended tip rectangle strictly exceeds the corresponding edge of the
reference area — the amended viewport when no container element is
supplied, the intersection of that viewport area with the container's
position when one is — and a tip that exceeds no edge yields the empty
list. -/
theorem overDirs_exact_subset (tip : JRect) (el : Option ClientRect) (env : Env) :
    overDirs tip el env =
      DIRS.filter (fun d =>
        if d = "top" then jfLt (amend tip).top (refArea el env).top
        else if d = "right" then jfLt (refArea el env).right (amend tip).right
        else if d = "bottom" then jfLt (refArea el env).bottom (amend tip).bottom
        else jfLt (amend tip).left (refArea el env).left) ∧
    (jfLt (amend tip).top (refArea el env).top = false →
     jfLt (refArea el env).right (amend tip).right = false →
     jfLt (refArea el env).bottom (amend tip).bottom = false →
     jfLt (amend tip).left (refArea el env).left = false →
     overDirs tip el env = []) := by
  have hb : ∀ b1 b2 b3 b4 : Bool,
      ((if b1 then ["top"] else []) ++ (if b2 then ["right"] else []) ++
        (if b3 then ["bottom"] else []) ++ (if b4 then ["left"] else [])) =
        DIRS.filter (fun d =>
          if d = "top" then b1
          else if d = "right" then b2
          else if d = "bottom" then b3
          else b4) := by decide
  constructor
  · cases el <;> simp only [overDirs, refArea] <;> exact hb _ _ _ _
  · intro h1 h2 h3 h4
    cases el <;> simp only [overDirs, refArea] at h1 h2 h3 h4 ⊢ <;> simp [h1, h2, h3, h4]

/-- A tip rectangle lying fully inside the 1000 × 1000 viewport. -/
def tipIn : JRect :=
  { top := .num (.val 10), left := .num (.val 10), width := .num (.val 40),
    height := .num (.val 20) }

theorem tipInAmend : amend tipIn =
    { top := .num (.val 10), left := .num (.val 10), right := .num (.val 50),
      bottom := .num (.val 30), width := .num (.val 40), height := .num (.val 20) } := by
  simp only [amend, strip, stripField, tipIn, jfAdd, JField.toNum, JField.isNum, JsNum.add]
  norm_num

theorem refAreaEval : refArea none env0 =
    { top := .num (.val 0), left := .num (.val 0), right := .num (.val 1000),
      bottom := .num (.val 1000), width := .num (.val 1000), height := .num (.val 1000) } :=
  areaEval

/-- C3 (witness): a concrete 40 × 20 tip at (10, 10) lies fully inside
the 1000 × 1000 viewport, and `overDirs` returns the empty list. -/
theorem overDirs_exact_subset_witness : overDirs tipIn none env0 = [] :=
  (overDirs_exact_subset tipIn none env0).2
    (by rw [tipInAmend, refAreaEval]; decide)
    (by rw [tipInAmend, refAreaEval]; decide)
    (by rw [tipInAmend, refAreaEval]; decide)
    (by rw [tipInAmend, refAreaEval]; decide)

/-- C4 (counterexample): for the input list `['top', 'top']`, `complete`
returns `['top', 'top', 'right', 'bottom', 'left']`, in which the
canonical direction `'top'` occurs twice, not exactly once as the claim
states for every input list. -/
theorem complete_duplicate_top_twice :
    (complete (.list ["top", "top"])).count "top" = 2 := by decide

/-- C4 (amended): for any input list of directions in which no canonical
direction occurs more than once, `complete` returns a list that contains
each of the four canonical directions exactly once, has the original
list as a prefix in its original order, appends after it exactly the
canonical directions not present in the input, in the canonical order
`[top, right, bottom, left]` (the suffix is the canonical list filtered
by non-membership), and is duplicate-free whenever the input is. -/
theorem complete_canonical_exactly_once (l : List String)
    (h : ∀ d ∈ DIRS, l.count d ≤ 1) :
    (∀ d ∈ DIRS, (complete (.list l)).count d = 1) ∧
    (complete (.list l)).take l.length = l ∧
    (complete (.list l)).drop l.length = DIRS.filter (fun d => decide (d ∉ l)) ∧
    (l.Nodup → (complete (.list l)).Nodup) := by
  have hc : complete (.list l) = l ++ DIRS.filter (fun x => !l.contains x) := rfl
  refine ⟨?_, ?_, ?_, ?_⟩
  · intro d hd
    rw [hc, List.count_append]
    by_cases hm : d ∈ l
    · have h1 : l.count d = 1 := le_antisymm (h d hd) (List.one_le_count_iff.mpr hm)
      have h2 : (DIRS.filter (fun x => !l.contains x)).count d = 0 := by
        rw [List.count_eq_zero]
        intro hmem
        have h3 := (List.mem_filter.mp hmem).2
        simp at h3
        exact h3 hm
      rw [h1, h2]
    · have h1 : l.count d = 0 := List.count_eq_zero.mpr hm
      have h2 : (DIRS.filter (fun x => !l.contains x)).count d = DIRS.count d :=
        List.count_filter (by simp [hm])
      have h4 : d = "top" ∨ d = "right" ∨ d = "bottom" ∨ d = "left" := by
        simpa [DIRS] using hd
      have h3 : DIRS.count d = 1 := by
        rcases h4 with rfl | rfl | rfl | rfl <;> decide
      rw [h1, h2, h3]
  · rw [hc]; exact List.take_left l _
  · rw [hc, List.drop_left]
    exact List.filter_congr (fun a _ => by simp)
  · intro hnd
    rw [hc]
    refine List.Nodup.append hnd (List.Nodup.filter _ (by decide)) ?_
    intro a ha hafil
    have h3 := (List.mem_filter.mp hafil).2
    simp at h3
    exact h3 ha

/-- C4 (witness): the amended claim instantiated at the duplicate-free
input `['right']`. -/
theorem complete_canonical_exactly_once_witness :
    (∀ d ∈ DIRS, (complete (.list ["right"])).count d = 1) ∧
    (complete (.list ["right"])).take (["right"] : List String).length = ["right"] ∧
    (complete (.list ["right"])).drop (["right"] : List String).length =
      DIRS.filter (fun d => decide (d ∉ (["right"] : List String))) ∧
    ((["right"] : List String).Nodup → (complete (.list ["right"])).Nodup) :=
  complete_canonical_exactly_once ["right"] (by decide)

/-- C5: `position` called with no element does not fail: for every
environment it returns the placeholder rectangle whose coordinates are
`NaN` (`undefined + scrollOffset`) and whose dimensions are `undefined`
— every field is a degraded placeholder the caller must treat as absent,
and no exception path exists (the function is total). -/
theorem position_none_placeholder (env : Env) :
    position none env =
      { top := .num .nan, left := .num .nan, right := .num .nan, bottom := .num .nan,
        width := .undefined, height := .undefined } := rfl

/-- C6: for `place = 'top'` with a DOM-element origin resolved to the
position rectangle `pos`, the offset returned by `placement` has
`left = pos.left + pos.width * ½ − content.width * ½` and
`top = pos.top − content.height − 12` (the fixed 12-unit gap), both
formatted as pixel-length strings, while width and height pass through
unmodified as numbers. -/
theorem placement_top_centering (content el : ClientRect) (env : Env) :
    placement "top" content (.dom el) env =
      { width := content.width, height := content.height,
        top := .str (pxString ((((position (some el) env).top.toNum).sub content.height).sub
          (.val 12))),
        left := .str (pxString ((((position (some el) env).left.toNum).add
          (((position (some el) env).width.toNum).mul (.val (1 / 2)))).sub
          (content.width.mul (.val (1 / 2))))) } := rfl

/-- C7: `amend` is idempotent on every rectangle-like record whose
fields are absent, numeric, or pixel strings: `amend (amend r) =
amend r`. -/
theorem amend_idem (r : JRect) : amend (amend r) = amend r := by
  rcases r with ⟨t, l, rr, b, w, h⟩
  cases t <;> cases l <;> cases rr <;> cases b <;> cases w <;> cases h <;> rfl

theorem jmax_comm (a b : JsNum) : a.jmax b = b.jmax a := by
  cases a <;> cases b <;> simp [JsNum.jmax, max_comm]

theorem jmin_comm (a b : JsNum) : a.jmin b = b.jmin a := by
  cases a <;> cases b <;> simp [JsNum.jmin, min_comm]

/-- A concrete rectangle at the origin, 10 × 10. -/
def rectA : JRect :=
  { top := .num (.val 0), left := .num (.val 0), width := .num (.val 10),
    height := .num (.val 10) }

/-- A concrete 5 × 5 rectangle disjoint from `rectA`. -/
def rectB : JRect :=
  { top := .num (.val 0), left := .num (.val 20), width := .num (.val 5),
    height := .num (.val 5) }

/-- C8: `intersection` is symmetric — swapping the two input rectangles
yields the same intersection rectangle — and on the concrete disjoint
pair `rectA`, `rectB` the resulting width is negative (callers must not
assume non-negativity). -/
theorem intersection_symmetric :
    (∀ a b : JRect, intersection a b = intersection b a) ∧
    JsNum.lt ((intersection rectA rectB).width.toNum) (.val 0) = true := by
  constructor
  · intro a b
    simp only [intersection]
    rw [jmax_comm (a.top.toNum) (b.top.toNum), jmax_comm (a.left.toNum) (b.left.toNum),
      jmin_comm ((a.left.toNum).add (a.width.toNum)) ((b.left.toNum).add (b.width.toNum)),
      jmin_comm ((a.top.toNum).add (a.height.toNum)) ((b.top.toNum).add (b.height.toNum))]
  · norm_num [intersection, rectA, rectB, JField.toNum, JsNum.add, JsNum.sub, JsNum.jmax,
      JsNum.jmin, JsNum.lt]

/-- C9: the rectangle invariant `right = left + width`,
`bottom = top + height` holds for every rectangle `intersection`
produces (by construction, for all inputs), and `amend` establishes it
whenever it derives the missing `right`/`bottom` from a numeric
`left + width`/`top + height` (hypotheses: the stripped record has
numeric width/height and non-numeric right/bottom). -/
theorem rect_invariant (a b r : JRect)
    (hw : (strip r).width.isNum = true) (hr : (strip r).right.isNum = false)
    (hh : (strip r).height.isNum = true) (hb : (strip r).bottom.isNum = false) :
    ((intersection a b).right.toNum =
        ((intersection a b).left.toNum).add ((intersection a b).width.toNum) ∧
      (intersection a b).bottom.toNum =
        ((intersection a b).top.toNum).add ((intersection a b).height.toNum)) ∧
    ((amend r).right = jfAdd (amend r).left (amend r).width ∧
     (amend r).bottom = jfAdd (amend r).top (amend r).height) := by
  refine ⟨⟨?_, ?_⟩, ?_, ?_⟩
  · simp only [intersection]
    cases a.left.toNum <;> cases a.width.toNum <;> cases b.left.toNum <;> cases b.width.toNum <;>
      simp [JsNum.add, JsNum.sub, JsNum.jmax, JsNum.jmin, JField.toNum]
  · simp only [intersection]
    cases a.top.toNum <;> cases a.height.toNum <;> cases b.top.toNum <;> cases b.height.toNum <;>
      simp [JsNum.add, JsNum.sub, JsNum.jmax, JsNum.jmin, JField.toNum]
  · simp only [amend, hw, hr, hh, hb]
    simp
  · simp only [amend, hw, hr, hh, hb]
    simp

/-- A partial rectangle with only numeric dimensions. -/
def rectC : JRect := { width := .num (.val 5), height := .num (.val 7) }

/-- C9 (witness): the invariant instantiated at the concrete rectangles
`rectA`, `rectB` and the partial record `rectC`. -/
theorem rect_invariant_witness :
    ((intersection rectA rectB).right.toNum =
        ((intersection rectA rectB).left.toNum).add ((intersection rectA rectB).width.toNum) ∧
      (intersection rectA rectB).bottom.toNum =
        ((intersection rectA rectB).top.toNum).add ((intersection rectA rectB).height.toNum)) ∧
    ((amend rectC).right = jfAdd (amend rectC).left (amend rectC).width ∧
     (amend rectC).bottom = jfAdd (amend rectC).top (amend rectC).height) :=
  rect_invariant rectA rectB rectC (by decide) (by decide) (by decide) (by decide)

/-- C10: `originOrEl` returns `props.origin` exactly when it is truthy
and falls back to `props.el` whenever `props.origin` is falsy — and the
values the claim lists (absent/`undefined`, `null`, the empty string,
and `0`) are all falsy, so a supplied-but-falsy origin is silently
replaced by the legacy `el` value. -/
theorem originOrEl_truthiness :
    (∀ o e : JsVal, truthy o = true → originOrEl o e = o) ∧
    (∀ o e : JsVal, truthy o = false → originOrEl o e = e) ∧
    truthy (.str "") = false ∧ truthy (.num (.val 0)) = false ∧
    truthy .undefined = false ∧ truthy .jnull = false := by
  refine ⟨fun o e h => ?_, fun o e h => ?_, by decide, by decide, by decide, by decide⟩
  · simp [originOrEl, h]
  · simp [originOrEl, h]

/-- C10 (witness): an empty-string origin is replaced by the `el`
value. -/
theorem originOrEl_truthiness_witness :
    originOrEl (.str "") (.dom content0) = .dom content0 :=
  originOrEl_truthiness.2.1 (.str "") (.dom content0) (by decide)

end Tooltip
